import Mathlib

/-!
Verification development for the csv-analyzer repository (CSV Insights
Dashboard). The definitions below are a shallow embedding of the
frontend code under src (api client, Home page validation, Report page
preview rendering, ChartView) together with spec-modelled definitions
for the backend components that the repository documents but whose
source is not present (Summary Compactor, Report Lifecycle Manager,
Insight Generator, Health Monitor).
-/

namespace CsvAnalyzer

/-! ## Frontend api client (src csv-frontend src api.js)

The axios instance is created with a fixed timeout of 120000 ms and
every exported endpoint helper issues its request through that
instance, so every client API request carries that timeout. -/

namespace Client

/-- Timeout in milliseconds configured on the shared axios instance. -/
def apiTimeoutMs : Nat := 120000

/-- A request issued through the shared axios instance: HTTP method,
path, and the timeout it inherits from the instance. -/
structure ApiRequest where
  method : String
  path : String
  timeoutMs : Nat
  deriving Repr, DecidableEq

/-- Build a request on the shared instance, which carries the
configured timeout. -/
def mkRequest (m p : String) : ApiRequest :=
  { method := m, path := p, timeoutMs := apiTimeoutMs }

/-- uploadCSV posts the file to /upload/. -/
def uploadCSV : ApiRequest := mkRequest "POST" "/upload/"

/-- getReports fetches the report listing. -/
def getReports : ApiRequest := mkRequest "GET" "/reports/"

/-- getReport fetches one report by id. -/
def getReport (id : String) : ApiRequest :=
  mkRequest "GET" ("/reports/" ++ id ++ "/")

/-- deleteReport deletes one report by id. -/
def deleteReport (id : String) : ApiRequest :=
  mkRequest "DELETE" ("/reports/" ++ id ++ "/delete/")

/-- generateInsights requests insight generation for one report. -/
def generateInsights (id : String) : ApiRequest :=
  mkRequest "POST" ("/reports/" ++ id ++ "/insights/")

/-- askFollowUp posts a follow-up question for one report. -/
def askFollowUp (id : String) : ApiRequest :=
  mkRequest "POST" ("/reports/" ++ id ++ "/follow-up/")

/-- getHealth fetches the health summary. -/
def getHealth : ApiRequest := mkRequest "GET" "/health/"

/-- Every request the client can issue, for a given report id. -/
def clientRequests (id : String) : List ApiRequest :=
  [uploadCSV, getReports, getReport id, deleteReport id,
   generateInsights id, askFollowUp id, getHealth]

end Client

/-! ## Home page upload validation (src unnamed part_001, validateFile)

validateFile rejects a missing file, a non-csv extension, a size above
25 MB, and an empty file, in that order, returning a nonempty error
message; handleFile stores no file when validation fails, and
handleUpload returns immediately when no file is stored, so no upload
request (and hence no aggregation) ever starts for rejected input. -/

namespace HomePage

/-- A browser File object as the page sees it: name and byte size. -/
structure JSFile where
  name : String
  size : Nat
  deriving Repr, DecidableEq

/-- Embedding of validateFile from the Home page: returns the error
message, or the empty string when the file is accepted. -/
def validateFile : Option JSFile → String
  | none => "Please select a file."
  | some f =>
    if !(f.name.toLower.endsWith ".csv") then "Only CSV files are accepted."
    else if f.size > 25 * 1024 * 1024 then "File size must be under 25 MB."
    else if f.size = 0 then "The file is empty."
    else ""

/-- The component state relevant to upload: the selected file, the
error banner, and whether an upload is in flight. -/
structure HomeState where
  file : Option JSFile
  error : String
  uploading : Bool
  deriving Repr, DecidableEq

/-- Embedding of handleFile: on a validation error the error is shown
and the selection is cleared; otherwise the file is stored. -/
def handleFile (s : HomeState) (f : Option JSFile) : HomeState :=
  let err := validateFile f
  if err ≠ "" then { s with error := err, file := none }
  else { s with error := "", file := f }

/-- Embedding of handleUpload: with no stored file it returns at once
without issuing any request; otherwise it starts the upload. The
boolean records whether uploadCSV was called. -/
def handleUpload (s : HomeState) : HomeState × Bool :=
  match s.file with
  | none => (s, false)
  | some _ => ({ s with uploading := true, error := "" }, true)

/-- A file input is invalid when it is missing, has a non-csv name,
exceeds 25 MB, or is empty. -/
def invalidInput (f : Option JSFile) : Prop :=
  f = none ∨ ∃ g, f = some g ∧
    (¬ (g.name.toLower.endsWith ".csv") = true ∨
     g.size > 25 * 1024 * 1024 ∨ g.size = 0)

end HomePage

/-! ## Shared helpers -/

/-- JavaScript Array.prototype.slice with nonnegative bounds:
slice s e keeps the elements with indices s, ..., e - 1. -/
def jsSlice {α : Type} (l : List α) (s e : Nat) : List α :=
  (l.drop s).take (e - s)

/-- The per-column statistics object as the frontend receives it in
report.column_stats: a JSON object whose fields are present or absent
depending on the column kind (numeric columns carry mean, median, min,
max; categorical columns carry top_values and distinct_count). -/
structure StatsJson where
  mean : Option Rat
  median : Option Rat
  min : Option Rat
  max : Option Rat
  std_dev : Option Rat
  top_values : Option (List (String × Nat))
  distinct_count : Option Nat
  null_count : Nat
  total_count : Nat
  deriving Repr, DecidableEq

/-! ## ChartView (src ABOUTME.md, ChartView component)

ChartView partitions report.column_stats into numeric columns (those
whose stats carry a mean) and categorical columns (those whose stats
carry a truthy, non-empty top_values object), then renders one
top-values bar chart per categorical column, but only for
categoricalCols.slice(0, 3). -/

namespace ChartView

/-- Embedding of the JS condition stats.top_values and
Object.keys(stats.top_values).length greater than 0: an absent
top_values field is falsy, an empty mapping has no keys. -/
def hasNonemptyTopValues (s : StatsJson) : Bool :=
  match s.top_values with
  | some tv => decide (0 < tv.length)
  | none => false

/-- Embedding of numericCols: entries whose stats.mean is defined, in
column_stats order. -/
def numericCols (cs : List (String × StatsJson)) : List String :=
  (cs.filter (fun p => p.2.mean.isSome)).map Prod.fst

/-- Embedding of categoricalCols: entries with a non-empty top_values
mapping, in column_stats order. -/
def categoricalCols (cs : List (String × StatsJson)) : List String :=
  (cs.filter (fun p => hasNonemptyTopValues p.2)).map Prod.fst

/-- Embedding of categoricalCols.slice(0, 3): the columns that get a
top-values bar chart. -/
def chartedCategoricalCols (cs : List (String × StatsJson)) : List String :=
  jsSlice (categoricalCols cs) 0 3

end ChartView

/-! ## Report page data preview (src unnamed part_002, Report component)

The preview tab renders report.preview_data.slice(0, 50). The backend
that builds preview_data is not part of src; per the spec it stores the
first N rows of the dataset (N = 50), in source order. -/

namespace ReportPage

/-- A dataset row as the frontend receives it: a mapping from column
name to the raw cell value rendered as a string. -/
structure Row where
  cells : List (String × String)
  deriving Repr, DecidableEq

/-- Modelled from the spec: the backend (not in src) bounds the stored
preview_data to the first N rows of the dataset for preview purposes,
N = 50, in source order. -/
def previewRowLimit : Nat := 50

/-- Modelled from the spec: preview_data as persisted on the Report is
the first previewRowLimit rows of the uploaded dataset. -/
def makePreviewData (rows : List Row) : List Row :=
  rows.take previewRowLimit

/-- Embedding of the preview table body: the rows actually rendered are
preview_data.slice(0, 50). -/
def renderedPreviewRows (preview_data : List Row) : List Row :=
  jsSlice preview_data 0 50

/-- The rows shown for an uploaded dataset: the frontend slice applied
to the backend-built preview_data. -/
def previewOfDataset (rows : List Row) : List Row :=
  renderedPreviewRows (makePreviewData rows)

end ReportPage

/-! ## Report Lifecycle Manager (backend, not in src)

The backend enforcing retention is absent from src; only its callers
(the reports listing on the Home page) and its documentation (README
"Access your last 5 reports") are present. The manager is modelled
from the spec. -/

namespace Lifecycle

/-- A retained report as the store sees it: its identity and its
immutable creation timestamp. -/
structure StoredReport where
  id : Nat
  created_at : Nat
  deriving Repr, DecidableEq

/-- Modelled from the spec: at most R reports are retained, R = 5. -/
def retentionCap : Nat := 5

/-- Modelled from the spec: eviction removes the oldest retained
report, the one with the minimal created_at (first such on a tie). -/
def removeOldest : List StoredReport → List StoredReport
  | [] => []
  | r :: rest =>
    if ∀ x ∈ rest, r.created_at ≤ x.created_at then rest
    else r :: removeOldest rest

/-- Modelled from the spec: creation appends the new report and, when
the cap is exceeded, synchronously evicts the oldest report, so a
caller never observes more than retentionCap reports. -/
def createReport (store : List StoredReport) (r : StoredReport) : List StoredReport :=
  if retentionCap < (store ++ [r]).length then removeOldest (store ++ [r])
  else store ++ [r]

/-- Modelled from the spec: the listing returns the retained reports. -/
def listReports (store : List StoredReport) : List StoredReport := store

end Lifecycle

/-! ## Insight Generator (backend, not in src)

The backend operations generate_insights and ask_follow_up are absent
from src; only their callers (the Report page handlers and the api
client) are present. The operations, the retry loop around the
external text-generation call, and the per-report serialization of
follow-ups are modelled from the spec. -/

namespace Insight

/-- Outcome of one attempt against the external text-generation
endpoint. -/
inductive LLMOutcome
  | success (text : String)
  | timeout
  | rateLimited
  | serverError
  | authFailure
  deriving Repr, DecidableEq

/-- The error classes the generator surfaces for external calls. -/
inductive LLMFailure
  | llmError
  | llmConfigError
  deriving Repr, DecidableEq

/-- Modelled from the spec: a timeout, rate limit or 5xx is a transient
LLMError; an authentication or configuration failure is an
LLMConfigError that is never retried; an empty response is treated as
an LLMError. -/
def classifyAttempt : LLMOutcome → Except LLMFailure String
  | .success t => if t.isEmpty then .error .llmError else .ok t
  | .timeout => .error .llmError
  | .rateLimited => .error .llmError
  | .serverError => .error .llmError
  | .authFailure => .error .llmConfigError

/-- Modelled from the spec: transient failures are retried up to a
small retry ceiling of 2 retries. -/
def maxRetries : Nat := 2

/-- Modelled from the spec: the mandatory time bound on one external
text-generation call, at the top of the stated 60 to 120 second
range; no operation blocks indefinitely on the endpoint. -/
def llmCallTimeoutMs : Nat := 120000

/-- Modelled from the spec: the retry loop; responses gives the outcome
of attempt number i, fuel is the number of attempts still allowed.
Config errors fail fast; on transient exhaustion the error surfaces. -/
def callAttempts (responses : Nat → LLMOutcome) : Nat → Nat → Except LLMFailure String
  | _, 0 => .error .llmError
  | i, fuel + 1 =>
    match classifyAttempt (responses i) with
    | .ok t => .ok t
    | .error .llmConfigError => .error .llmConfigError
    | .error .llmError => callAttempts responses (i + 1) fuel

/-- Modelled from the spec: one external call session, making at most
1 + maxRetries attempts. -/
def callWithRetry (responses : Nat → LLMOutcome) : Except LLMFailure String :=
  callAttempts responses 0 (maxRetries + 1)

/-- The Report entity fields the Insight Generator reads and writes. -/
structure Report where
  id : Nat
  original_filename : String
  row_count : Nat
  columns : List String
  insights : Option String
  follow_up_answers : List (String × String)
  created_at : Nat
  deriving Repr, DecidableEq

/-- Modelled from the spec: generate_insights with the idempotent
no-op policy. When insights is already set the cached text is returned
with no external call; otherwise one external call session runs and on
success sets insights; on failure the report is left unchanged. The
Nat counts external call sessions started. -/
def generateInsightsOp (responses : Nat → LLMOutcome) (r : Report) :
    Report × Except LLMFailure String × Nat :=
  match r.insights with
  | some t => (r, .ok t, 0)
  | none =>
    match callWithRetry responses with
    | .ok t => ({ r with insights := some t }, .ok t, 1)
    | .error e => (r, .error e, 1)

/-- Modelled from the spec: ask_follow_up runs one external call
session and on success appends the question and answer; on failure the
report is left unchanged and the error surfaces. -/
def askFollowUpOp (responses : Nat → LLMOutcome) (r : Report) (q : String) :
    Report × Except LLMFailure String :=
  match callWithRetry responses with
  | .ok a => ({ r with follow_up_answers := r.follow_up_answers ++ [(q, a)] }, .ok a)
  | .error e => (r, .error e)

/-- Modelled from the spec: per-report serialization of follow-ups.
The manager holds one exclusive section per report, so the call for
the next question starts only after the previous answer is stored; the
clock advances by the latency of each external call, and each answer
is appended at the moment its own call completes. Returns the final
report and the final clock value. -/
def serializedFollowUps (answerOf : String → String) (latency : String → Nat)
    (clock : Nat) (r : Report) : List String → Report × Nat
  | [] => (r, clock)
  | q :: qs =>
    serializedFollowUps answerOf latency (clock + latency q)
      { r with follow_up_answers := r.follow_up_answers ++ [(q, answerOf q)] } qs

end Insight

/-! ## Health Monitor (backend, not in src)

The backend health endpoint is absent from src; only its caller (the
Status page) is present. The monitor is modelled from the spec: it
probes the store and the external text endpoint, never raises (it is a
total function of the probe outcomes; a probe failure arrives as a
captured status), and combines the outcomes into a tri-state
overall value. -/

namespace Health

/-- Status of one probed subsystem. -/
inductive ProbeStatus
  | healthy
  | degraded
  | unreachable
  deriving Repr, DecidableEq

/-- Outcome of probing one subsystem: its status plus a detail string;
a failing probe is captured as a status and detail, never an
exception. -/
structure ProbeResult where
  status : ProbeStatus
  detail : String
  deriving Repr, DecidableEq

/-- One subsystem entry of the health summary: a status label and a
detail string. -/
structure SubsystemReport where
  status : String
  detail : String
  deriving Repr, DecidableEq

/-- The summary health returns: overall plus one entry per probed
subsystem. -/
structure HealthSummary where
  overall : String
  store : SubsystemReport
  llm : SubsystemReport
  deriving Repr, DecidableEq

/-- Label of a probe status. -/
def statusLabel : ProbeStatus → String
  | .healthy => "healthy"
  | .degraded => "degraded"
  | .unreachable => "unreachable"

/-- The subsystem entry reporting one probe outcome. -/
def subsystemReport (p : ProbeResult) : SubsystemReport :=
  { status := statusLabel p.status, detail := p.detail }

/-- Modelled from the spec: the combination rule. Store unreachable is
error (the store is foundational); all subsystems healthy is healthy;
anything else is degraded. -/
def health (storeProbe llmProbe : ProbeResult) : HealthSummary :=
  let overall :=
    if storeProbe.status = .unreachable then "error"
    else if storeProbe.status = .healthy ∧ llmProbe.status = .healthy then "healthy"
    else "degraded"
  { overall := overall
    store := subsystemReport storeProbe
    llm := subsystemReport llmProbe }

end Health

/-! ## Summary Compactor (backend, not in src)

The backend compactor is absent from src. It is modelled from the
spec: it consumes only the aggregated column statistics and dataset
metadata, never the Dataset Sample, truncates deterministically to the
most informative columns (numeric first, then categorical with lower
null ratio) with a marker counting the omitted columns, and emits only
aggregated scalars plus the capped top-K categorical value labels. -/

namespace Compactor

/-- The tagged-union per-column statistics the aggregator produces. -/
inductive ColumnStats
  | numeric (mean median lo hi std_dev : Rat) (null_count total_count : Nat)
  | categorical (top_values : List (String × Nat))
      (distinct_count null_count total_count : Nat)
  deriving Repr, DecidableEq

/-- The durable Report as the backend holds it, including the fields
the compactor must never read: the preview rows (the Dataset Sample
retained for display). -/
structure FullReport where
  original_filename : String
  row_count : Nat
  columns : List String
  column_stats : List (String × ColumnStats)
  preview_data : List ReportPage.Row
  deriving Repr, DecidableEq

/-- Modelled from the spec: the top-K cap on categorical value labels,
K = 5. -/
def topK : Nat := 5

/-- Modelled from the spec: the column budget of the compacted
payload; beyond it the least informative columns are omitted. -/
def maxSummaryCols : Nat := 20

/-- Ranking key for truncation: numeric columns come first, then
categorical columns ordered by null ratio in permille (lower ratio is
more informative). -/
def colPriority : ColumnStats → Nat
  | .numeric _ _ _ _ _ _ _ => 0
  | .categorical _ _ nc tc => 1001 + nc * 1000 / (Nat.max 1 (nc + tc))

/-- Stable insertion of one column into a ranked list: it goes before
the first strictly larger key, so equal keys keep source order. -/
def insertRanked (p : String × ColumnStats) :
    List (String × ColumnStats) → List (String × ColumnStats)
  | [] => [p]
  | q :: qs =>
    if colPriority p.2 < colPriority q.2 then p :: q :: qs
    else q :: insertRanked p qs

/-- Deterministic ranking of the columns by informativeness. -/
def rankColumns (cs : List (String × ColumnStats)) :
    List (String × ColumnStats) :=
  cs.foldr insertRanked []

/-- One column of the compacted payload: the column name, a kind tag,
labelled aggregated scalars, labelled aggregated counts, and the
capped top-K value labels with their counts. -/
structure CompactColumn where
  name : String
  kind : String
  scalars : List (String × Rat)
  counts : List (String × Nat)
  top_labels : List (String × Nat)
  deriving Repr, DecidableEq

/-- The compacted summary payload: dataset metadata, the kept columns,
and the count of omitted columns. -/
structure CompactSummary where
  filename : String
  row_count : Nat
  column_count : Nat
  columns : List CompactColumn
  omitted_columns : Nat
  deriving Repr, DecidableEq

/-- Modelled from the spec: compaction of one column. Numeric columns
contribute their aggregated scalars; categorical columns contribute
their counts and the capped top-K value labels. -/
def compactColumn (name : String) : ColumnStats → CompactColumn
  | .numeric mean median lo hi sd nc tc =>
    { name := name
      kind := "numeric"
      scalars := [("mean", mean), ("median", median), ("min", lo),
                  ("max", hi), ("std_dev", sd)]
      counts := [("null_count", (nc : Nat)), ("total_count", tc)]
      top_labels := [] }
  | .categorical tv dc nc tc =>
    { name := name
      kind := "categorical"
      scalars := []
      counts := [("distinct_count", dc), ("null_count", nc), ("total_count", tc)]
      top_labels := tv.take topK }

/-- Modelled from the spec: the Summary Compactor. Its input is only
the column statistics and dataset metadata; it ranks, truncates and
compacts the columns and appends the omitted-columns marker. -/
def compact (filename : String) (row_count : Nat)
    (cs : List (String × ColumnStats)) : CompactSummary :=
  let kept := (rankColumns cs).take maxSummaryCols
  { filename := filename
    row_count := row_count
    column_count := cs.length
    columns := kept.map (fun p => compactColumn p.1 p.2)
    omitted_columns := cs.length - kept.length }

/-- The payload the system sends externally for a report: the
compactor applied to the aggregated statistics and metadata of the
report. -/
def compactReport (r : FullReport) : CompactSummary :=
  compact r.original_filename r.row_count r.column_stats

/-- Every string occurring in one compacted column. -/
def columnStrings (c : CompactColumn) : List String :=
  c.name :: c.kind ::
    (c.scalars.map Prod.fst ++ c.counts.map Prod.fst ++ c.top_labels.map Prod.fst)

/-- Every string occurring anywhere in the compacted payload. -/
def payloadStrings (s : CompactSummary) : List String :=
  s.filename :: (s.columns.map columnStrings).flatten

/-- The fixed vocabulary of field labels the compactor itself emits. -/
def fieldLabels : List String :=
  ["numeric", "categorical", "mean", "median", "min", "max", "std_dev",
   "null_count", "total_count", "distinct_count"]

/-- The top-K labels stored in one column statistics value. -/
def statsLabels : ColumnStats → List String
  | .numeric _ _ _ _ _ _ _ => []
  | .categorical tv _ _ _ => tv.map Prod.fst

/-- All capped top-K labels across the column statistics. -/
def topLabels (cs : List (String × ColumnStats)) : List String :=
  (cs.map (fun p => statsLabels p.2)).flatten

/-- A string the privacy contract allows in the payload: the filename,
a column name, a fixed field label, or a capped top-K label taken from
the aggregated statistics. -/
def allowedString (r : FullReport) (s : String) : Prop :=
  s = r.original_filename ∨ s ∈ r.column_stats.map Prod.fst ∨
    s ∈ fieldLabels ∨ s ∈ topLabels r.column_stats

end Compactor

/-! ## Helper lemmas -/

/-- The charting classification as a Bool holds exactly when top_values
is present and non-empty. -/
lemma hasNonemptyTopValues_iff (s : StatsJson) :
    ChartView.hasNonemptyTopValues s = true ↔
      ∃ tv, s.top_values = some tv ∧ tv ≠ [] := by
  cases h : s.top_values <;>
    simp [ChartView.hasNonemptyTopValues, h, List.length_pos]

/-- Eviction of the oldest shortens a nonempty store by one. -/
lemma removeOldest_length (l : List Lifecycle.StoredReport) (h : l ≠ []) :
    (Lifecycle.removeOldest l).length = l.length - 1 := by
  induction l with
  | nil => exact absurd rfl h
  | cons r rest ih =>
    simp only [Lifecycle.removeOldest]
    by_cases hc : ∀ x ∈ rest, r.created_at ≤ x.created_at
    · rw [if_pos hc]
      simp
    · rw [if_neg hc]
      cases rest with
      | nil => exact absurd (by simp) hc
      | cons y ys =>
        have hy := ih (by simp)
        simp only [List.length_cons] at hy ⊢
        omega

/-- Eviction on a store listed in strictly increasing created_at order
drops exactly the head, the single oldest report. -/
lemma removeOldest_sorted (l : List Lifecycle.StoredReport)
    (hsort : l.Pairwise (fun a b => a.created_at < b.created_at)) :
    Lifecycle.removeOldest l = l.drop 1 := by
  cases l with
  | nil => rfl
  | cons r rest =>
    cases hsort with
    | cons ha _ =>
      simp only [Lifecycle.removeOldest]
      rw [if_pos fun x hx => le_of_lt (ha x hx)]
      rfl

/-- Creation preserves the retention bound. -/
lemma createReport_length (store : List Lifecycle.StoredReport)
    (r : Lifecycle.StoredReport) (h : store.length ≤ Lifecycle.retentionCap) :
    (Lifecycle.createReport store r).length ≤ Lifecycle.retentionCap := by
  unfold Lifecycle.createReport
  by_cases hc : Lifecycle.retentionCap < (store ++ [r]).length
  · rw [if_pos hc, removeOldest_length _ (by simp)]
    simp
    omega
  · rw [if_neg hc]
    omega

/-- Any run of creations from a store within the bound stays within
the bound. -/
lemma foldl_create_length (rs : List Lifecycle.StoredReport) :
    ∀ store : List Lifecycle.StoredReport,
      store.length ≤ Lifecycle.retentionCap →
      (rs.foldl Lifecycle.createReport store).length ≤ Lifecycle.retentionCap := by
  induction rs with
  | nil => intro store h; exact h
  | cons r rest ih =>
    intro store h
    exact ih _ (createReport_length store r h)

/-- While the cap is not exceeded, creations only append. -/
lemma foldl_create_fill (rs : List Lifecycle.StoredReport) :
    ∀ store : List Lifecycle.StoredReport,
      store.length + rs.length ≤ Lifecycle.retentionCap →
      rs.foldl Lifecycle.createReport store = store ++ rs := by
  induction rs with
  | nil => intro store _; simp
  | cons r rest ih =>
    intro store h
    simp only [List.length_cons] at h
    have hone : Lifecycle.createReport store r = store ++ [r] := by
      unfold Lifecycle.createReport
      rw [if_neg (by simp; omega)]
    rw [List.foldl_cons, hone, ih (store ++ [r]) (by simp; omega)]
    simp

/-- Membership in a ranked insertion. -/
lemma mem_insertRanked {p x : String × Compactor.ColumnStats}
    {l : List (String × Compactor.ColumnStats)} :
    x ∈ Compactor.insertRanked p l ↔ x = p ∨ x ∈ l := by
  induction l with
  | nil => simp [Compactor.insertRanked]
  | cons q qs ih =>
    by_cases hc : Compactor.colPriority p.2 < Compactor.colPriority q.2
    · simp [Compactor.insertRanked, hc]
    · simp [Compactor.insertRanked, hc, ih]
      tauto

/-- Ranking the columns permutes them: membership is unchanged. -/
lemma mem_rankColumns {x : String × Compactor.ColumnStats}
    {cs : List (String × Compactor.ColumnStats)} :
    x ∈ Compactor.rankColumns cs ↔ x ∈ cs := by
  induction cs with
  | nil => simp [Compactor.rankColumns]
  | cons q qs ih =>
    simp only [Compactor.rankColumns, List.foldr_cons] at *
    rw [mem_insertRanked, ih]
    simp

/-- A label stored in the statistics of a listed column is one of the
top labels of the whole mapping. -/
lemma topLabel_mem {cs : List (String × Compactor.ColumnStats)}
    {name : String} {stats : Compactor.ColumnStats} {s : String}
    (hmem : (name, stats) ∈ cs) (hl : s ∈ Compactor.statsLabels stats) :
    s ∈ Compactor.topLabels cs := by
  simp only [Compactor.topLabels, List.mem_flatten, List.mem_map]
  exact ⟨Compactor.statsLabels stats, ⟨(name, stats), hmem, rfl⟩, hl⟩

/-! ## Claim theorems -/

/-- C4: an uploaded file that is bad (missing), of the wrong type
(non-csv name), oversized (above 25 MB), or empty is rejected by
validateFile with a nonempty error message, the page stores no file,
and handleUpload on the resulting state issues no upload request, so
aggregation never begins and the rejected input is never retried. -/
theorem invalid_upload_rejected (s : HomePage.HomeState)
    (f : Option HomePage.JSFile) (h : HomePage.invalidInput f) :
    HomePage.validateFile f ≠ "" ∧
    (HomePage.handleFile s f).file = none ∧
    HomePage.handleUpload (HomePage.handleFile s f) =
      (HomePage.handleFile s f, false) := by
  have hval : HomePage.validateFile f ≠ "" := by
    rcases h with rfl | ⟨g, rfl, hbad⟩
    · simp [HomePage.validateFile]
    · simp only [HomePage.validateFile]
      split
      · simp
      · split
        · simp
        · split
          · simp
          · rename_i h1 h2 h3
            rcases hbad with hb | hb | hb
            · simp at h1
              exact absurd h1 hb
            · exact absurd hb h2
            · exact absurd hb h3
  have hfile : (HomePage.handleFile s f).file = none := by
    simp [HomePage.handleFile, hval]
  refine ⟨hval, hfile, ?_⟩
  simp [HomePage.handleUpload, hfile]

/-- Witness for C4: a concrete empty file is rejected and no upload
starts. -/
theorem invalid_upload_rejected_witness :
    HomePage.validateFile (some ⟨"data.csv", 0⟩) ≠ "" ∧
    (HomePage.handleFile ⟨none, "", false⟩ (some ⟨"data.csv", 0⟩)).file = none ∧
    HomePage.handleUpload (HomePage.handleFile ⟨none, "", false⟩ (some ⟨"data.csv", 0⟩)) =
      (HomePage.handleFile ⟨none, "", false⟩ (some ⟨"data.csv", 0⟩), false) :=
  invalid_upload_rejected ⟨none, "", false⟩ (some ⟨"data.csv", 0⟩)
    (Or.inr ⟨⟨"data.csv", 0⟩, rfl, Or.inr (Or.inr rfl)⟩)

/-- C7: the rendered data preview is exactly the first 50 rows of the
dataset in source order, hence never more than 50 rows and never a row
beyond the first 50. -/
theorem preview_first_fifty (rows : List ReportPage.Row) :
    ReportPage.previewOfDataset rows = rows.take 50 ∧
    (ReportPage.previewOfDataset rows).length ≤ 50 := by
  have heq : ReportPage.previewOfDataset rows = rows.take 50 := by
    simp [ReportPage.previewOfDataset, ReportPage.renderedPreviewRows,
      ReportPage.makePreviewData, ReportPage.previewRowLimit, jsSlice,
      List.take_take]
  exact ⟨heq, by rw [heq]; exact List.length_take_le 50 rows⟩

/-- C8: every request of the api client carries the 120000 ms timeout
of the shared axios instance, so it is bounded by 120 seconds and in
particular positive and finite; the external text-generation call is
bounded by the same ceiling. -/
theorem requests_time_bounded (id : String) (r : Client.ApiRequest)
    (h : r ∈ Client.clientRequests id) :
    r.timeoutMs = 120000 ∧ r.timeoutMs ≤ 120 * 1000 ∧
    0 < r.timeoutMs ∧ Insight.llmCallTimeoutMs ≤ 120 * 1000 := by
  have ht : r.timeoutMs = 120000 := by
    simp only [Client.clientRequests, List.mem_cons, List.not_mem_nil,
      or_false] at h
    rcases h with rfl | rfl | rfl | rfl | rfl | rfl | rfl <;> rfl
  exact ⟨ht, by omega, by omega, by norm_num [Insight.llmCallTimeoutMs]⟩

/-- Witness for C8: the upload request at a concrete report id. -/
theorem requests_time_bounded_witness :
    Client.uploadCSV.timeoutMs = 120000 ∧
    Client.uploadCSV.timeoutMs ≤ 120 * 1000 ∧
    0 < Client.uploadCSV.timeoutMs ∧
    Insight.llmCallTimeoutMs ≤ 120 * 1000 :=
  requests_time_bounded "1" Client.uploadCSV (by simp [Client.clientRequests])

/-- C10: the charts view draws top-values bar charts for at most the
first three categorical columns, in column_stats order (the charted
list is the 3-bounded prefix of the categorical columns, themselves a
sublist of the column order), and a column is classified as
categorical for charting exactly when its stats carry a non-empty
top_values mapping. -/
theorem charts_top3_categorical (cs : List (String × StatsJson)) :
    (ChartView.chartedCategoricalCols cs).length ≤ 3 ∧
    ChartView.chartedCategoricalCols cs = (ChartView.categoricalCols cs).take 3 ∧
    (∀ c, c ∈ ChartView.categoricalCols cs ↔
      ∃ s, (c, s) ∈ cs ∧ ∃ tv, s.top_values = some tv ∧ tv ≠ []) ∧
    List.Sublist (ChartView.categoricalCols cs) (cs.map Prod.fst) := by
  refine ⟨?_, rfl, ?_, ?_⟩
  · exact List.length_take_le 3 _
  · intro c
    simp only [ChartView.categoricalCols, List.mem_map, List.mem_filter]
    constructor
    · rintro ⟨⟨n, st⟩, ⟨hmem, hcat⟩, rfl⟩
      exact ⟨st, hmem, (hasNonemptyTopValues_iff st).mp hcat⟩
    · rintro ⟨st, hmem, htv⟩
      exact ⟨(c, st), ⟨hmem, (hasNonemptyTopValues_iff st).mpr htv⟩, rfl⟩
  · exact (List.filter_sublist cs).map Prod.fst

/-- C6: follow-ups on one report are stored in call order. Asking q1
then q2 through the serialized per-report section appends the two
question-answer pairs in that order for every latency assignment of
the external calls, in particular when the second call would complete
first in a non-serialized run: stored order is call order, not
completion order. -/
theorem follow_up_call_order (answerOf : String → String)
    (latency : String → Nat) (clock : Nat) (r : Insight.Report)
    (q1 q2 : String) :
    ((Insight.serializedFollowUps answerOf latency clock r [q1, q2]).1).follow_up_answers
      = r.follow_up_answers ++ [(q1, answerOf q1), (q2, answerOf q2)] := by
  simp [Insight.serializedFollowUps]

/-- C3: generate_insights is idempotent. Once a first invocation has
left insights set, a second invocation with no intervening state
change returns the cached text, stores an identical insights value,
and starts zero external call sessions. -/
theorem generate_insights_idempotent (resp1 resp2 : Nat → Insight.LLMOutcome)
    (r : Insight.Report)
    (h : ((Insight.generateInsightsOp resp1 r).1).insights.isSome = true) :
    ∃ t, ((Insight.generateInsightsOp resp1 r).1).insights = some t ∧
      Insight.generateInsightsOp resp2 ((Insight.generateInsightsOp resp1 r).1)
        = (((Insight.generateInsightsOp resp1 r).1), Except.ok t, 0) := by
  obtain ⟨t, ht⟩ := Option.isSome_iff_exists.mp h
  refine ⟨t, ht, ?_⟩
  generalize (Insight.generateInsightsOp resp1 r).1 = r1 at ht ⊢
  simp [Insight.generateInsightsOp, ht]

/-- Witness for C3: a successful first generation on a fresh report,
then a second invocation that is a no-op. -/
theorem generate_insights_idempotent_witness :
    ∃ t, ((Insight.generateInsightsOp (fun _ => .success "text")
        ⟨1, "a.csv", 2, ["c"], none, [], 0⟩).1).insights = some t ∧
      Insight.generateInsightsOp (fun _ => .timeout)
          ((Insight.generateInsightsOp (fun _ => .success "text")
            ⟨1, "a.csv", 2, ["c"], none, [], 0⟩).1)
        = (((Insight.generateInsightsOp (fun _ => .success "text")
            ⟨1, "a.csv", 2, ["c"], none, [], 0⟩).1), Except.ok t, 0) :=
  generate_insights_idempotent (fun _ => .success "text") (fun _ => .timeout)
    ⟨1, "a.csv", 2, ["c"], none, [], 0⟩ (by rfl)

/-- C5: when the external call session fails after its retries are
exhausted, generate_insights and ask_follow_up surface the error to
the caller and leave the report exactly unchanged: no partial insight
and no partial answer is ever stored. -/
theorem llm_failure_preserves_report (responses : Nat → Insight.LLMOutcome)
    (r : Insight.Report) (q : String) (e : Insight.LLMFailure)
    (hfail : Insight.callWithRetry responses = .error e) :
    (Insight.generateInsightsOp responses r).1 = r ∧
    (r.insights = none →
      (Insight.generateInsightsOp responses r).2.1 = .error e) ∧
    Insight.askFollowUpOp responses r q = (r, .error e) := by
  refine ⟨?_, ?_, ?_⟩
  · cases hi : r.insights <;> simp [Insight.generateInsightsOp, hi, hfail]
  · intro hi
    simp [Insight.generateInsightsOp, hi, hfail]
  · simp [Insight.askFollowUpOp, hfail]

/-- Witness for C5: every attempt times out, the retries are
exhausted, and a concrete report is left unchanged by both
operations. -/
theorem llm_failure_preserves_report_witness :
    (Insight.generateInsightsOp (fun _ => .timeout)
      ⟨1, "a.csv", 2, ["c"], none, [], 0⟩).1 = ⟨1, "a.csv", 2, ["c"], none, [], 0⟩ ∧
    ((⟨1, "a.csv", 2, ["c"], none, [], 0⟩ : Insight.Report).insights = none →
      (Insight.generateInsightsOp (fun _ => .timeout)
        ⟨1, "a.csv", 2, ["c"], none, [], 0⟩).2.1 = .error .llmError) ∧
    Insight.askFollowUpOp (fun _ => .timeout)
        ⟨1, "a.csv", 2, ["c"], none, [], 0⟩ "why"
      = (⟨1, "a.csv", 2, ["c"], none, [], 0⟩, .error .llmError) :=
  llm_failure_preserves_report (fun _ => .timeout)
    ⟨1, "a.csv", 2, ["c"], none, [], 0⟩ "why" .llmError (by rfl)

/-- C9: health is a total function of the probe outcomes (it never
raises), reports each subsystem as a status-detail pair, and combines
them by the stated rule: healthy exactly when store and llm are both
healthy, error when the store is unreachable, degraded when the llm is
not healthy while the store is. -/
theorem health_shape_and_combination (sp lp : Health.ProbeResult) :
    (Health.health sp lp).store = Health.subsystemReport sp ∧
    (Health.health sp lp).llm = Health.subsystemReport lp ∧
    ((Health.health sp lp).overall = "healthy" ↔
      sp.status = .healthy ∧ lp.status = .healthy) ∧
    (sp.status = .unreachable → (Health.health sp lp).overall = "error") ∧
    (sp.status = .healthy → lp.status ≠ .healthy →
      (Health.health sp lp).overall = "degraded") := by
  obtain ⟨s, d⟩ := sp
  obtain ⟨t, e⟩ := lp
  cases s <;> cases t <;>
    simp [Health.health, Health.subsystemReport, Health.statusLabel]

/-- C2: for every sequence of report creations issued in increasing
created_at order, the listing never exceeds the retention cap of 5,
and after creating exactly 6 reports the listing is the sequence
without its oldest element: the single oldest report is absent and all
others are present in order. -/
theorem report_retention (rs : List Lifecycle.StoredReport)
    (hsort : rs.Pairwise (fun a b => a.created_at < b.created_at)) :
    (∀ seqn : List Lifecycle.StoredReport,
      (Lifecycle.listReports (seqn.foldl Lifecycle.createReport [])).length
        ≤ Lifecycle.retentionCap) ∧
    (rs.length = Lifecycle.retentionCap + 1 →
      Lifecycle.listReports (rs.foldl Lifecycle.createReport []) = rs.drop 1) := by
  constructor
  · intro seqn
    exact foldl_create_length seqn [] (by simp)
  · intro hlen
    have hne : rs ≠ [] := by
      intro hnil
      rw [hnil] at hlen
      simp [Lifecycle.retentionCap] at hlen
    have hstep : rs.foldl Lifecycle.createReport []
        = Lifecycle.createReport rs.dropLast (rs.getLast hne) := by
      conv_lhs => rw [← List.dropLast_append_getLast hne]
      rw [List.foldl_append,
        foldl_create_fill _ []
          (by simp [List.length_dropLast, hlen, Lifecycle.retentionCap])]
      simp
    rw [Lifecycle.listReports, hstep]
    unfold Lifecycle.createReport
    rw [List.dropLast_append_getLast hne,
      if_pos (by rw [hlen]; omega),
      removeOldest_sorted rs hsort]

/-- Witness for C2: six concrete reports created in timestamp order
leave exactly the last five retained. -/
theorem report_retention_witness :
    (∀ seqn : List Lifecycle.StoredReport,
      (Lifecycle.listReports (seqn.foldl Lifecycle.createReport [])).length
        ≤ Lifecycle.retentionCap) ∧
    (([⟨0, 10⟩, ⟨1, 11⟩, ⟨2, 12⟩, ⟨3, 13⟩, ⟨4, 14⟩, ⟨5, 15⟩] :
        List Lifecycle.StoredReport).length = Lifecycle.retentionCap + 1 →
      Lifecycle.listReports
          (([⟨0, 10⟩, ⟨1, 11⟩, ⟨2, 12⟩, ⟨3, 13⟩, ⟨4, 14⟩, ⟨5, 15⟩] :
            List Lifecycle.StoredReport).foldl Lifecycle.createReport [])
        = ([⟨0, 10⟩, ⟨1, 11⟩, ⟨2, 12⟩, ⟨3, 13⟩, ⟨4, 14⟩, ⟨5, 15⟩] :
            List Lifecycle.StoredReport).drop 1) :=
  report_retention [⟨0, 10⟩, ⟨1, 11⟩, ⟨2, 12⟩, ⟨3, 13⟩, ⟨4, 14⟩, ⟨5, 15⟩]
    (by decide)

/-- C1: the compacted summary payload, the only representation sent to
the external endpoint, is built from the aggregated statistics and
metadata alone: it is invariant under any change of the Dataset Sample
(so no per-row value or raw cell content can flow into it), and every
string it contains is the filename, a column name, a fixed field
label, or one of the capped top-K categorical value labels of the
aggregated statistics. -/
theorem summary_compactor_privacy (r : Compactor.FullReport) :
    (∀ sample, Compactor.compactReport { r with preview_data := sample }
        = Compactor.compactReport r) ∧
    (∀ s, s ∈ Compactor.payloadStrings (Compactor.compactReport r) →
      Compactor.allowedString r s) := by
  constructor
  · intro sample
    rfl
  · intro s hs
    simp only [Compactor.payloadStrings, Compactor.compactReport,
      Compactor.compact, List.mem_cons, List.mem_flatten, List.mem_map] at hs
    rcases hs with rfl | ⟨strs, ⟨c, ⟨p, hp, rfl⟩, rfl⟩, hsc⟩
    · exact Or.inl rfl
    · obtain ⟨name, stats⟩ := p
      have hpcs : (name, stats) ∈ r.column_stats :=
        mem_rankColumns.mp (List.take_subset _ _ hp)
      have hname : name ∈ r.column_stats.map Prod.fst :=
        List.mem_map.mpr ⟨(name, stats), hpcs, rfl⟩
      cases stats with
      | numeric mean median lo hi sd nc tc =>
        simp only [Compactor.columnStrings, Compactor.compactColumn,
          List.map_cons, List.map_nil, List.cons_append, List.nil_append,
          List.append_nil, List.mem_cons, List.not_mem_nil, or_false] at hsc
        rcases hsc with rfl | hsc
        · exact Or.inr (Or.inl hname)
        · refine Or.inr (Or.inr (Or.inl ?_))
          rcases hsc with rfl | rfl | rfl | rfl | rfl | rfl | rfl | rfl <;>
            simp [Compactor.fieldLabels]
      | categorical tv dc nc tc =>
        simp only [Compactor.columnStrings, Compactor.compactColumn,
          List.map_cons, List.map_nil, List.cons_append, List.nil_append,
          List.append_nil, List.mem_cons] at hsc
        rcases hsc with rfl | rfl | rfl | rfl | rfl | hsc
        · exact Or.inr (Or.inl hname)
        · exact Or.inr (Or.inr (Or.inl (by simp [Compactor.fieldLabels])))
        · exact Or.inr (Or.inr (Or.inl (by simp [Compactor.fieldLabels])))
        · exact Or.inr (Or.inr (Or.inl (by simp [Compactor.fieldLabels])))
        · exact Or.inr (Or.inr (Or.inl (by simp [Compactor.fieldLabels])))
        · refine Or.inr (Or.inr (Or.inr ?_))
          obtain ⟨q, hq, rfl⟩ := List.mem_map.mp hsc
          refine topLabel_mem hpcs ?_
          simp only [Compactor.statsLabels]
          exact List.mem_map.mpr ⟨q, List.take_subset _ _ hq, rfl⟩

end CsvAnalyzer
